import Mathlib

/-!
# updateProxyIP: a shallow embedding of `main.go`

The development follows the single source file `main.go`:

* `getLatency` (lines 35-61): one probe of one address;
* `getIP` (lines 63-96): concurrent probes of a candidate list, sort by latency,
  first result that passes the loss filter;
* `uploadIP` (lines 98-219): the retry loop around zone lookup, record lookup and update;
* `handleMain` (lines 221-282): per-domain control flow.

Modelling conventions.

* Go `float64` values are modelled by rationals: `PacketLoss` and `LossRate` are `ℚ`, and the
  `fmt.Sprintf("%.2f", x)` / `strconv.ParseFloat` round trip is rounding to two decimals.
  The arithmetic of line 54 is rounded to `float64` after each operation.
* Go `int` is `Int`; `time.Duration` is an `Int` number of nanoseconds.
* Go strings are Lean strings; `strings.Trim` and `strings.Split` work on the character list.
* Everything the program reads from the outside (the ping library, the goroutine schedule, the
  library sort, the DNS provider, the archive) is an explicit argument.
* Loops that need not terminate take a fuel argument and report when it runs out.
-/

namespace UpdateProxyIP

/-! ## Data model (lines 23-33) -/

/-- The struct `Config` (lines 23-27). -/
structure Config where
  Email : String
  Key : String
  DomainInfos : List (List String)
deriving DecidableEq, Repr

/-- The struct `LatencyResult` (lines 29-33). -/
structure LatencyResult where
  Latency : Int
  IP : String
  LossRate : ℚ
deriving DecidableEq, Repr

/-- The two fields of go-ping's `Statistics` that `getLatency` reads: `PacketLoss` is the
percentage of packets lost (the library computes `(sent - recv) / sent * 100`), `AvgRtt` the
mean round-trip time in nanoseconds. -/
structure Statistics where
  PacketLoss : ℚ
  AvgRtt : Int
deriving DecidableEq, Repr

/-- The outcome of `ping.NewPinger(ip)` followed by `Run()` and `Statistics()` with the given
packet count: `none` when `NewPinger` returns an error. -/
abbrev Pinger := String → Nat → Option Statistics

/-! ## getLatency (lines 35-61) -/

/-- Rounding of a rational to the nearest integer, ties to even: the rounding
`fmt.Sprintf("%.2f", ·)` performs on the digits it drops. -/
def roundHalfEven (x : ℚ) : Int :=
  let f : Int := ⌊x⌋
  let r : ℚ := x - f
  if r < 1 / 2 then f
  else if 1 / 2 < r then f + 1
  else if f % 2 = 0 then f else f + 1

/-- Lines 55-56: `fmt.Sprintf("%.2f", x)` then `strconv.ParseFloat`. -/
def round2 (x : ℚ) : ℚ := (roundHalfEven (x * 100) : ℚ) / 100

/-- The number of halvings that bring `n` below 2, so `2 ^ bitsBelow n n ≤ n` for `n ≥ 1`;
the first argument bounds the recursion. -/
def bitsBelow : Nat → Nat → Nat
  | 0, _ => 0
  | fuel + 1, n => if n < 2 then 0 else bitsBelow fuel (n / 2) + 1

/-- The binary exponent of a non-zero rational: the `e` with `2 ^ e ≤ |x| < 2 ^ (e + 1)`. -/
def binaryExponent (x : ℚ) : Int :=
  let e : Int := (bitsBelow x.num.natAbs x.num.natAbs : Int) - (bitsBelow x.den x.den : Int)
  if (2 : ℚ) ^ e ≤ |x| then e else e - 1

/-- The `float64` nearest to `x`: 53 significant bits, ties to even. The exponent range is
not modelled; the values of line 54 are far inside it. -/
def toFloat64 (x : ℚ) : ℚ :=
  if x = 0 then 0
  else
    let ulp : ℚ := (2 : ℚ) ^ (binaryExponent x - 52)
    (roundHalfEven (x / ulp) : ℚ) * ulp

/-- The method `Duration.Seconds` of package `time`:
`float64(d / Second) + float64(d % Second) / 1e9`, each operation rounded. -/
def seconds (d : Int) : ℚ :=
  let sec : Int := Int.tdiv d 1000000000
  let nsec : Int := Int.tmod d 1000000000
  toFloat64 (toFloat64 sec + toFloat64 (toFloat64 nsec / 1000000000))

/-- The conversion `int(x)` of a `float64`: the fraction is dropped. -/
def truncate (x : ℚ) : Int := Int.tdiv x.num x.den

/-- Line 54: `int(stats.AvgRtt.Seconds() * 1000)`, computed in `float64` as the code does:
a round-trip time of 1001 ms gives 1000. -/
def millis (avgRtt : Int) : Int := truncate (toFloat64 (seconds avgRtt * 1000))

/-- `getLatency` (lines 35-61). -/
def getLatency (ping : Pinger) (ip : String) (count : Nat) : LatencyResult :=
  let latency : Int := 9999
  let lossRate : ℚ := 1
  match ping ip count with
  | none => { Latency := 9999, IP := ip, LossRate := 1 }
  | some stats =>
    if stats.PacketLoss < 35 then
      { Latency := millis stats.AvgRtt, IP := ip, LossRate := round2 stats.PacketLoss }
    else
      { Latency := latency, IP := ip, LossRate := lossRate }

/-! ## getIP (lines 63-96) -/

/-- The line feed, the cut set of `strings.Trim` and the separator of `strings.Split`. -/
def newline : Char := Char.ofNat 10

/-- `strings.Trim(s, "\n")` on the character list: leading and trailing line feeds go. -/
def trimNewlines (s : List Char) : List Char :=
  ((s.dropWhile (· == newline)).reverse.dropWhile (· == newline)).reverse

/-- `strings.Split(s, "\n")` on the character list: one more piece than separators, so the
empty text gives one empty piece. -/
def splitNewlines : List Char → List (List Char)
  | [] => [[]]
  | c :: cs =>
    if c = newline then [] :: splitNewlines cs
    else
      match splitNewlines cs with
      | [] => [[c]]
      | piece :: pieces => (c :: piece) :: pieces

/-- Line 65: `ipList := strings.Split(strings.Trim(content, "\n"), "\n")`. -/
def ipList (content : String) : List String :=
  (splitNewlines (trimNewlines content.toList)).map String.mk

/-- Lines 68-74: one goroutine per address, each sending `getLatency(ip, 4)`; the list is in
goroutine order. The pinger of goroutine `i` is `ping i`, so two probes of one address may
differ. -/
def probeAll (ping : Nat → Pinger) (ips : List String) : List LatencyResult :=
  ips.enum.map fun p => getLatency (ping p.1) p.2 4

/-- What the run does not fix in `getIP`: the order in which the channel hands the results
over (lines 79-82), and the order `sort.Slice` leaves them in (lines 84-86). -/
structure Scheduler where
  deliver : List LatencyResult → List LatencyResult
  sortSlice : List LatencyResult → List LatencyResult

/-- The channel loses and invents nothing, and `sort.Slice` returns the same elements with no
later element less than an earlier one under `results[i].Latency < results[j].Latency`; it is
not a stable sort. -/
def Scheduler.Valid (s : Scheduler) : Prop :=
  (∀ l, (s.deliver l).Perm l) ∧
  (∀ l, (s.sortSlice l).Perm l) ∧
  (∀ l, (s.sortSlice l).Pairwise fun a b => ¬ b.Latency < a.Latency)

/-- Lines 88-95: the first result whose `LossRate <= 0.35`, or the empty string. -/
def firstAccepted : List LatencyResult → String
  | [] => ""
  | item :: rest => if item.LossRate ≤ 0.35 then item.IP else firstAccepted rest

/-- `getIP` (lines 63-96). -/
def getIP (ping : Nat → Pinger) (s : Scheduler) (content : String) : String :=
  let results := s.deliver (probeAll ping (ipList content))
  firstAccepted (s.sortSlice results)

/-- A scheduler to run the model with: results arrive in goroutine order and the sort is an
insertion sort. -/
def inOrder : Scheduler where
  deliver := id
  sortSlice := List.insertionSort fun a b => a.Latency ≤ b.Latency

/-- A second scheduler: results arrive in reverse goroutine order. -/
def reversed : Scheduler where
  deliver := List.reverse
  sortSlice := List.insertionSort fun a b => a.Latency ≤ b.Latency

/-- A pool of three candidates: the first answers in 120 ms, the second in 20 ms with one
packet of four lost, the third in 80 ms. -/
def samplePool : Nat → Pinger := fun _ ip _ =>
  if ip = "1.1.1.1" then some { PacketLoss := 0, AvgRtt := 120000000 }
  else if ip = "2.2.2.2" then some { PacketLoss := 25, AvgRtt := 20000000 }
  else if ip = "3.3.3.3" then some { PacketLoss := 0, AvgRtt := 80000000 }
  else none

/-- A pool of three candidates that all answer every packet, in 120, 20 and 80 ms. -/
def cleanPool : Nat → Pinger := fun _ ip _ =>
  if ip = "1.1.1.1" then some { PacketLoss := 0, AvgRtt := 120000000 }
  else if ip = "2.2.2.2" then some { PacketLoss := 0, AvgRtt := 20000000 }
  else some { PacketLoss := 0, AvgRtt := 80000000 }

/-- Two probes of one address listed twice: the first goroutine has every packet answered in
20 ms, every other goroutine loses all its packets. -/
def twiceListed : Nat → Pinger := fun i _ _ =>
  if i = 0 then some { PacketLoss := 0, AvgRtt := 20000000 }
  else some { PacketLoss := 100, AvgRtt := 0 }

/-- A probe that loses one packet of four and answers in 20 ms. -/
def onePacketLost : Pinger := fun _ _ => some { PacketLoss := 25, AvgRtt := 20000000 }

/-- A probe that loses two packets of four. -/
def twoPacketsLost : Pinger := fun _ _ => some { PacketLoss := 50, AvgRtt := 20000000 }

/-! ## uploadIP (lines 98-219) -/

/-- A decoded JSON value, as `encoding/json` stores it in an `interface{}`; `null` is also
the nil interface a map gives for a key it does not hold. -/
inductive JSON where
  | null
  | bool (b : Bool)
  | num (n : ℚ)
  | str (s : String)
  | arr (items : List JSON)
  | obj (fields : List (String × JSON))

/-- The expression `m[key]` on a decoded object: a repeated key keeps its last value, an
absent key gives nil. -/
def JSON.field (fields : List (String × JSON)) (key : String) : JSON :=
  match fields.reverse.find? fun kv => kv.1 == key with
  | some kv => kv.2
  | none => JSON.null

/-- What `io.ReadAll(resp.Body)` gives: an error, or bytes, which decode to a JSON value or
are not valid JSON. -/
inductive Body where
  | unreadable
  | text (decoded : Option JSON)

/-- What `client.Do(req)` gives: an error, or a response with its status code and body. -/
inductive Response where
  | transportError
  | http (status : Nat) (body : Body)

inductive Method where
  | GET
  | PUT
deriving DecidableEq, Repr

/-- The map `params` of lines 178-183, the body of the update call. -/
structure Params where
  id : String
  type : String
  name : String
  content : String
deriving DecidableEq, Repr

/-- A request handed to `client.Do`: method, URL, the two credential headers (the other two
headers are constants) and the body. -/
structure Request where
  method : Method
  url : String
  email : String
  key : String
  body : Option Params
deriving DecidableEq, Repr

/-- The DNS provider and the HTTP library as `uploadIP` sees them: whether `http.NewRequest`
accepts a URL, and the response to the request that `client.Do` sends as its `k`-th. -/
structure Provider where
  newRequestOk : Method → String → Bool
  respond : Nat → Request → Response

/-- The lines `uploadIP` logs; time stamps and error texts are left out. -/
inductive LogLine where
  | requestFailed (retry : Nat) (url : String)
  | doFailed (retry : Nat) (url : String)
  | readFailed (retry : Nat) (url : String)
  | updated (name domain ip : String)
  | updateFailed (name domain : String)
deriving DecidableEq, Repr

/-- The variables of `uploadIP` that live across iterations, `retry` and `url`, with three
records of the run: the number of iterations started, the requests sent and the lines
logged. -/
structure UploadState where
  retry : Nat
  url : String
  attempts : Nat
  sent : List Request
  log : List LogLine
deriving DecidableEq, Repr

/-- How one pass through the loop body ends: `continue` or the end of the body, `break`, or
a run-time panic. -/
inductive Step where
  | next (st : UploadState)
  | stop (st : UploadState)
  | fault (st : UploadState)
deriving DecidableEq, Repr

/-- How a run of `uploadIP` ends: it returns, it panics, or the fuel runs out with the loop
still going. -/
inductive Outcome where
  | returned (st : UploadState)
  | panicked (st : UploadState)
  | running (st : UploadState)
deriving DecidableEq, Repr

/-- Lines 136-137 and 167-168: `json.Unmarshal` into a nil `map[string]interface{}`, its error
dropped. The map stays nil (here: empty) unless the bytes are a JSON object. -/
def unmarshalObject : Option JSON → List (String × JSON)
  | some (JSON.obj fields) => fields
  | _ => []

/-- Line 138: `result["result"].([]interface{})[0].(map[string]interface{})["id"].(string)`;
`none` when a type assertion or the index panics. -/
def zoneId (result : List (String × JSON)) : Option String :=
  match JSON.field result "result" with
  | JSON.arr (first :: _) =>
    match first with
    | JSON.obj fields =>
      match JSON.field fields "id" with
      | JSON.str s => some s
      | _ => none
    | _ => none
  | _ => none

/-- Line 169: `dnsRecords["result"].([]interface{})`; `none` when the assertion panics. -/
def resultList (dnsRecords : List (String × JSON)) : Option (List JSON) :=
  match JSON.field dnsRecords "result" with
  | JSON.arr items => some items
  | _ => none

/-- Lines 170-176: the id of the first record of type "A", the empty string when there is
none; `none` when a type assertion panics on the way. -/
def findRid : List JSON → Option String
  | [] => some ""
  | record :: rest =>
    match record with
    | JSON.obj fields =>
      match JSON.field fields "type" with
      | JSON.str t =>
        if t = "A" then
          match JSON.field fields "id" with
          | JSON.str s => some s
          | _ => none
        else findRid rest
      | _ => none
    | _ => none

/-- Line 100. -/
def zoneURL (domain : String) : String :=
  "https://api.cloudflare.com/client/v4/zones?name=" ++ domain

/-- Line 140. -/
def recordsURL (zid name domain : String) : String :=
  "https://api.cloudflare.com/client/v4/zones/" ++ zid ++ "/dns_records?name=" ++ name ++ "." ++
    domain

/-- Line 188. -/
def recordURL (zid rid : String) : String :=
  "https://api.cloudflare.com/client/v4/zones/" ++ zid ++ "/dns_records/" ++ rid

/-- The request built at lines 110-118 and 141-149. -/
def getRequest (url email key : String) : Request :=
  { method := Method.GET, url := url, email := email, key := key, body := none }

/-- The request built at lines 178-198. -/
def putRequest (url email key zid name domain ip : String) : Request :=
  { method := Method.PUT, url := url, email := email, key := key,
    body := some { id := zid, type := "A", name := name ++ "." ++ domain, content := ip } }

/-- An aborted pass: the line is logged and `retry` goes up by one. -/
def UploadState.abort (st : UploadState) (line : LogLine) : UploadState :=
  { st with log := st.log ++ [line], retry := st.retry + 1 }

/-- The call `client.Do(req)`: the request joins the record of requests sent. -/
def UploadState.send (st : UploadState) (req : Request) : UploadState :=
  { st with sent := st.sent ++ [req] }

/-- Lines 188-213: the update call. -/
def updateRecord (p : Provider) (ip name domain email key zid rid : String)
    (st0 : UploadState) : Step :=
  let st := { st0 with url := recordURL zid rid }
  if p.newRequestOk Method.PUT st.url then
    let req := putRequest st.url email key zid name domain ip
    match p.respond st.sent.length req with
    | Response.transportError =>
      Step.next ((st.send req).abort (LogLine.doFailed st.retry st.url))
    | Response.http status _ =>
      if status = 200 then
        Step.stop { st.send req with log := st.log ++ [LogLine.updated name domain ip] }
      else
        Step.next { st.send req with retry := st.retry + 1 }
  else
    Step.next (st.abort (LogLine.requestFailed st.retry st.url))

/-- Lines 140-186: the record lookup, then the update call when a record id was found. -/
def lookupRecord (p : Provider) (ip name domain email key zid : String)
    (st0 : UploadState) : Step :=
  let st := { st0 with url := recordsURL zid name domain }
  if p.newRequestOk Method.GET st.url then
    let req := getRequest st.url email key
    match p.respond st.sent.length req with
    | Response.transportError =>
      Step.next ((st.send req).abort (LogLine.doFailed st.retry st.url))
    | Response.http _ Body.unreadable =>
      Step.next ((st.send req).abort (LogLine.readFailed st.retry st.url))
    | Response.http _ (Body.text decoded) =>
      match resultList (unmarshalObject decoded) with
      | none => Step.fault (st.send req)
      | some records =>
        match findRid records with
        | none => Step.fault (st.send req)
        | some rid =>
          if rid = "" then Step.next (st.send req)
          else updateRecord p ip name domain email key zid rid (st.send req)
  else
    Step.next (st.abort (LogLine.requestFailed st.retry st.url))

/-- The body of the loop, lines 110-213: a request to the current `url`, then the record
lookup when a zone id was read from the answer. -/
def attempt (p : Provider) (ip name domain email key : String) (st0 : UploadState) : Step :=
  let st := { st0 with attempts := st0.attempts + 1 }
  if p.newRequestOk Method.GET st.url then
    let req := getRequest st.url email key
    match p.respond st.sent.length req with
    | Response.transportError =>
      Step.next ((st.send req).abort (LogLine.doFailed st.retry st.url))
    | Response.http _ Body.unreadable =>
      Step.next ((st.send req).abort (LogLine.readFailed st.retry st.url))
    | Response.http _ (Body.text decoded) =>
      match zoneId (unmarshalObject decoded) with
      | none => Step.fault (st.send req)
      | some zid => lookupRecord p ip name domain email key zid (st.send req)
  else
    Step.next (st.abort (LogLine.requestFailed st.retry st.url))

/-- Lines 215-218: the failure line when `retry >= 5`. -/
def finish (name domain : String) (st : UploadState) : UploadState :=
  if 5 ≤ st.retry then { st with log := st.log ++ [LogLine.updateFailed name domain] } else st

/-- The loop `for retry < 5` of lines 109-214 followed by lines 215-218, run for at most
`fuel` passes. -/
def uploadLoop (p : Provider) (ip name domain email key : String) :
    Nat → UploadState → Outcome
  | 0, st => if st.retry < 5 then Outcome.running st else Outcome.returned (finish name domain st)
  | fuel + 1, st =>
    if st.retry < 5 then
      match attempt p ip name domain email key st with
      | Step.next st' => uploadLoop p ip name domain email key fuel st'
      | Step.stop st' => Outcome.returned (finish name domain st')
      | Step.fault st' => Outcome.panicked st'
    else Outcome.returned (finish name domain st)

/-- `uploadIP` (lines 98-219), run for at most `fuel` passes through its loop. -/
def uploadIP (p : Provider) (fuel : Nat) (ip name domain email key : String) : Outcome :=
  uploadLoop p ip name domain email key fuel
    { retry := 0, url := zoneURL domain, attempts := 0, sent := [], log := [] }

/-- A provider that cannot be reached: every call fails in transport. -/
def unreachable : Provider where
  newRequestOk := fun _ _ => true
  respond := fun _ _ => Response.transportError

/-- The answer `{"result":[{"id":"z1"}]}` to a zone lookup. -/
def oneZone : Response :=
  Response.http 200 (Body.text (some (JSON.obj
    [("result", JSON.arr [JSON.obj [("id", JSON.str "z1")]])])))

/-- A provider that answers every call with `{"result":[{"id":"r1","type":"CNAME"}]}`: a
list that holds an id and no record of type "A". -/
def onlyCNAME : Provider where
  newRequestOk := fun _ _ => true
  respond := fun _ _ =>
    Response.http 200 (Body.text (some (JSON.obj
      [("result", JSON.arr [JSON.obj [("id", JSON.str "r1"), ("type", JSON.str "CNAME")]])])))

/-- A provider whose answers are not JSON, such as an HTML error page. -/
def notJSON : Provider where
  newRequestOk := fun _ _ => true
  respond := fun _ _ => Response.http 502 (Body.text none)

/-- A provider that knows no such zone: every answer is `{"result":[]}`. -/
def noZone : Provider where
  newRequestOk := fun _ _ => true
  respond := fun _ _ => Response.http 200 (Body.text (some (JSON.obj [("result", JSON.arr [])])))

/-- A provider that refuses the credentials: every answer is `{"success":false}`, with no
"result" field. -/
def refused : Provider where
  newRequestOk := fun _ _ => true
  respond := fun _ _ =>
    Response.http 403 (Body.text (some (JSON.obj [("success", JSON.bool false)])))

/-- A provider that answers the first call with a zone and every later call with
`{"result":[{"id":"r1"}]}`, a record without a "type". -/
def untypedRecord : Provider where
  newRequestOk := fun _ _ => true
  respond := fun k _ =>
    if k = 0 then oneZone
    else Response.http 200 (Body.text (some (JSON.obj
      [("result", JSON.arr [JSON.obj [("id", JSON.str "r1")]])])))

/-- A provider that answers the first call with a zone and fails every later call in
transport. -/
def recordLookupDown : Provider where
  newRequestOk := fun _ _ => true
  respond := fun k _ => if k = 0 then oneZone else Response.transportError

/-! ## handleMain (lines 221-282) -/

/-- What opening and reading one archive entry gives (lines 248-258): an error from
`file.Open`, an error from `io.ReadAll`, or the text. -/
inductive FileData where
  | openError
  | readError
  | text (content : String)
deriving DecidableEq, Repr

/-- One entry of `z.File`. -/
structure ZipFile where
  Name : String
  data : FileData
deriving DecidableEq, Repr

/-- What lines 226-242 give: an error from `http.Get`, from `io.ReadAll` or from
`zip.NewReader`, or the entries in the order the archive lists them. -/
inductive Archive where
  | getError
  | readError
  | zipError
  | files (File : List ZipFile)
deriving DecidableEq, Repr

/-- Everything `handleMain` reads from outside: the probe of the current address, the
probes of the pool (by archive entry, then by goroutine), the scheduler of `getIP`, and the
archive. -/
structure World where
  pingCurrent : Pinger
  pingPool : Nat → Nat → Pinger
  scheduler : Scheduler
  archive : Archive

/-- What `handleMain` does, in order: the calls it makes and the lines it logs. -/
inductive Event where
  | probe (address : String) (count : Nat)
  | fetchArchive
  | select (content : String)
  | upload (ip name domain email key : String)
  | logDownloadError
  | logReadError
  | logZipError
  | logOpenError
  | logFileReadError
  | logNotUpdated (address : String) (latency : Int)
deriving DecidableEq, Repr

/-- Whether `sub` is at the head of `s`. -/
def startsWith : List Char → List Char → Bool
  | _, [] => true
  | [], _ :: _ => false
  | c :: s, d :: sub => c == d && startsWith s sub

/-- `strings.Contains(s, sub)` on character lists. -/
def stringsContains : List Char → List Char → Bool
  | [], sub => startsWith [] sub
  | c :: s, sub => startsWith (c :: s) sub || stringsContains s sub

/-- Lines 248-258, and again lines 260-270: open the entry and read it; the event is the
line logged before `return`. -/
def readFile (file : ZipFile) : Except Event String :=
  match file.data with
  | FileData.openError => Except.error Event.logOpenError
  | FileData.readError => Except.error Event.logFileReadError
  | FileData.text content => Except.ok content

/-- The loop of lines 244-277 over the entries from index `i` on. `domainInfo[0]` and
`domainInfo[1]` exist here, since line 223 has read them. -/
def scanFiles (w : World) (config : Config) (domainInfo : List String) :
    Nat → List ZipFile → List Event
  | _, [] => []
  | i, file :: rest =>
    let content : Except Event String :=
      if domainInfo.length = 3 ∧
          stringsContains file.Name.toList (domainInfo.getD 2 "").toList = true then
        readFile file
      else
        readFile file
    match content with
    | Except.error line => [line]
    | Except.ok text =>
      let ip := getIP (w.pingPool i) w.scheduler text
      if ip ≠ "" then
        [Event.select text,
          Event.upload ip (domainInfo.getD 0 "") (domainInfo.getD 1 "") config.Email config.Key]
      else
        Event.select text :: scanFiles w config domainInfo (i + 1) rest

/-- `handleMain` (lines 221-282): the events of one call, `none` when line 223 indexes past
the end of `domainInfo`. The call of `uploadIP` is an event; what it does is `uploadIP`. -/
def handleMain (w : World) (config : Config) (domainInfo : List String) : Option (List Event) :=
  match domainInfo with
  | d0 :: d1 :: _ =>
    let url := d0 ++ "." ++ d1
    let result := getLatency w.pingCurrent url 10
    if result.Latency > 200 then
      match w.archive with
      | Archive.getError => some [Event.probe url 10, Event.fetchArchive, Event.logDownloadError]
      | Archive.readError => some [Event.probe url 10, Event.fetchArchive, Event.logReadError]
      | Archive.zipError => some [Event.probe url 10, Event.fetchArchive, Event.logZipError]
      | Archive.files File =>
        some (Event.probe url 10 :: Event.fetchArchive :: scanFiles w config domainInfo 0 File)
    else
      some [Event.probe url 10, Event.logNotUpdated url result.Latency]
  | _ => none

/-- A pinger that answers every packet in the given number of milliseconds. -/
def answersIn (ms : Int) : Pinger := fun _ _ => some { PacketLoss := 0, AvgRtt := ms * 1000000 }

/-- An archive with the entries "a.txt" and "b.txt", in that order, one address each. -/
def twoEntries : Archive :=
  Archive.files
    [{ Name := "a.txt", data := FileData.text "1.1.1.1\n" },
      { Name := "b.txt", data := FileData.text "2.2.2.2\n" }]

/-- A world in which the current address answers in `ms` milliseconds, every candidate
answers every packet in 50 ms, and the archive is `twoEntries`. -/
def sampleWorld (ms : Int) : World where
  pingCurrent := answersIn ms
  pingPool := fun _ _ => answersIn 50
  scheduler := inOrder
  archive := twoEntries

/-- A configuration with one domain that asks for the source "b". -/
def sampleConfig : Config where
  Email := "e"
  Key := "k"
  DomainInfos := [["www", "example.com", "b"]]

/-! ## Facts about the selection -/

theorem splitNewlines_ne_nil (s : List Char) : splitNewlines s ≠ [] := by
  induction s with
  | nil => simp [splitNewlines]
  | cons c cs ih =>
    unfold splitNewlines
    split
    · simp
    · split <;> simp

theorem ipList_ne_nil (content : String) : ipList content ≠ [] := by
  simp [ipList, splitNewlines_ne_nil]

theorem enumFrom_map_getLatency_IP (ping : Nat → Pinger) (count : Nat) :
    ∀ (ips : List String) (n : Nat),
      ((ips.enumFrom n).map fun p => (getLatency (ping p.1) p.2 count).IP) = ips := by
  intro ips
  induction ips with
  | nil => intro n; rfl
  | cons ip rest ih =>
    intro n
    have h : (getLatency (ping n) ip count).IP = ip := by
      unfold getLatency
      split
      · rfl
      · split <;> rfl
    simp only [List.enumFrom_cons, List.map_cons, h, ih]

/-- Every result carries the address it was asked to probe, in goroutine order. -/
theorem probeAll_map_IP (ping : Nat → Pinger) (ips : List String) :
    (probeAll ping ips).map LatencyResult.IP = ips := by
  have h := enumFrom_map_getLatency_IP ping 4 ips 0
  simpa [probeAll, List.enum, List.map_map, Function.comp_def] using h

theorem probeAll_ne_nil (ping : Nat → Pinger) (content : String) :
    probeAll ping (ipList content) ≠ [] := by
  intro h
  have h2 := probeAll_map_IP ping (ipList content)
  rw [h] at h2
  exact ipList_ne_nil content h2.symm

/-- The scan of lines 88-95 either stops at an accepted result or finds none. -/
theorem firstAccepted_cases (l : List LatencyResult) :
    (∃ r ∈ l, r.LossRate ≤ 0.35 ∧ firstAccepted l = r.IP) ∨
      ((∀ r ∈ l, ¬ r.LossRate ≤ 0.35) ∧ firstAccepted l = "") := by
  induction l with
  | nil => right; simp [firstAccepted]
  | cons item rest ih =>
    by_cases h : item.LossRate ≤ 0.35
    · left
      exact ⟨item, List.mem_cons_self _ _, h, by simp [firstAccepted, h]⟩
    · rcases ih with ⟨r, hr, hacc, heq⟩ | ⟨hall, heq⟩
      · left
        exact ⟨r, List.mem_cons_of_mem _ hr, hacc, by simp [firstAccepted, h, heq]⟩
      · right
        refine ⟨?_, by simp [firstAccepted, h, heq]⟩
        intro r hr
        rcases List.mem_cons.mp hr with rfl | hr
        · exact h
        · exact hall r hr

theorem mem_sorted_iff (s : Scheduler) (hs : s.Valid) (l : List LatencyResult)
    (r : LatencyResult) : r ∈ s.sortSlice (s.deliver l) ↔ r ∈ l :=
  ((hs.2.1 (s.deliver l)).mem_iff).trans ((hs.1 l).mem_iff)

theorem insertionSort_latency_pairwise (l : List LatencyResult) :
    (List.insertionSort (fun a b => a.Latency ≤ b.Latency) l).Pairwise
      fun a b => ¬ b.Latency < a.Latency := by
  haveI : IsTotal LatencyResult fun a b => a.Latency ≤ b.Latency :=
    ⟨fun a b => le_total a.Latency b.Latency⟩
  haveI : IsTrans LatencyResult fun a b => a.Latency ≤ b.Latency :=
    ⟨fun _ _ _ hab hbc => le_trans hab hbc⟩
  have h := List.sorted_insertionSort (fun a b : LatencyResult => a.Latency ≤ b.Latency) l
  exact List.Pairwise.imp (fun hab => not_lt.mpr hab) h

theorem inOrder_valid : inOrder.Valid :=
  ⟨fun _ => List.Perm.refl _, fun l => List.perm_insertionSort _ l,
    insertionSort_latency_pairwise⟩

theorem reversed_valid : reversed.Valid :=
  ⟨fun l => List.reverse_perm l, fun l => List.perm_insertionSort _ l,
    insertionSort_latency_pairwise⟩

/-! ## The selection: claims C1 and C2 -/

/-- C1, as stated, fails: with the address 1.1.1.1 listed twice, the first probe clean and
the second with every packet lost, `getIP` returns 1.1.1.1, the address of a probe result with
`LossRate` 1, above 0.35. -/
theorem getIP_returns_address_with_a_lost_probe :
    getIP twiceListed inOrder "1.1.1.1\n1.1.1.1" = "1.1.1.1" ∧
      ({ Latency := 9999, IP := "1.1.1.1", LossRate := 1 } : LatencyResult) ∈
        probeAll twiceListed (ipList "1.1.1.1\n1.1.1.1") ∧
      ∃ r ∈ probeAll twiceListed (ipList "1.1.1.1\n1.1.1.1"),
        r.IP = getIP twiceListed inOrder "1.1.1.1\n1.1.1.1" ∧ 0.35 < r.LossRate := by
  decide!

/-- C1, amended: whatever the candidate text, the probe outcomes, the delivery order and the
order `sort.Slice` leaves, a non-empty address returned by `getIP` is the address of a probe
result with `LossRate ≤ 0.35`; hence an address all of whose probe results have
`LossRate > 0.35` is never returned as a winner; when every result has `LossRate > 0.35` the
return value is the empty string; and the empty text, whose only candidate is the empty
address on which the pinger cannot be created, gives the empty string. -/
theorem getIP_returns_only_accepted (ping : Nat → Pinger) (s : Scheduler) (hs : s.Valid)
    (content : String) :
    (getIP ping s content ≠ "" →
        ∃ r ∈ probeAll ping (ipList content),
          r.IP = getIP ping s content ∧ r.LossRate ≤ 0.35) ∧
      (∀ a : String,
        (∀ r ∈ probeAll ping (ipList content), r.IP = a → 0.35 < r.LossRate) →
          getIP ping s content = a → a = "") ∧
      ((∀ r ∈ probeAll ping (ipList content), 0.35 < r.LossRate) →
        getIP ping s content = "") ∧
      (ipList "" = [""] ∧ (ping 0 "" 4 = none → getIP ping s "" = "")) := by
  have key : ∀ c : String,
      (∃ r ∈ probeAll ping (ipList c), r.LossRate ≤ 0.35 ∧ getIP ping s c = r.IP) ∨
        ((∀ r ∈ probeAll ping (ipList c), ¬ r.LossRate ≤ 0.35) ∧ getIP ping s c = "") := by
    intro c
    rcases firstAccepted_cases (s.sortSlice (s.deliver (probeAll ping (ipList c)))) with
      ⟨r, hr, hacc, heq⟩ | ⟨hall, heq⟩
    · exact Or.inl ⟨r, (mem_sorted_iff s hs _ r).mp hr, hacc, heq⟩
    · exact Or.inr ⟨fun r hr => hall r ((mem_sorted_iff s hs _ r).mpr hr), heq⟩
  have first : getIP ping s content ≠ "" →
      ∃ r ∈ probeAll ping (ipList content),
        r.IP = getIP ping s content ∧ r.LossRate ≤ 0.35 := by
    intro hne
    rcases key content with ⟨r, hr, hacc, heq⟩ | ⟨_, heq⟩
    · exact ⟨r, hr, heq.symm, hacc⟩
    · exact absurd heq hne
  refine ⟨first, ?_, ?_, by decide, ?_⟩
  · intro a hall heq
    by_contra hne
    obtain ⟨r, hr, hip, hacc⟩ := first (by rw [heq]; exact hne)
    exact absurd hacc (not_le.mpr (hall r hr (hip.trans heq)))
  · intro hall
    rcases key content with ⟨r, hr, hacc, _⟩ | ⟨_, heq⟩
    · exact absurd hacc (not_le.mpr (hall r hr))
    · exact heq
  · intro hnone
    rcases key "" with ⟨r, hr, hacc, _⟩ | ⟨_, heq⟩
    · have hl : ipList "" = [""] := by decide
      rw [hl] at hr
      simp only [probeAll, List.enum, List.enumFrom, List.map_cons, List.map_nil,
        List.mem_singleton] at hr
      subst hr
      simp only [getLatency, hnone] at hacc
      norm_num at hacc
    · exact heq

/-- C1, amended, at a concrete pool: the 20 ms candidate lost a packet and is passed over. -/
theorem getIP_returns_only_accepted_witness :
    inOrder.Valid ∧ getIP samplePool inOrder "1.1.1.1\n2.2.2.2\n3.3.3.3\n" = "3.3.3.3" ∧
      ∃ r ∈ probeAll samplePool (ipList "1.1.1.1\n2.2.2.2\n3.3.3.3\n"),
        r.IP = getIP samplePool inOrder "1.1.1.1\n2.2.2.2\n3.3.3.3\n" ∧ r.LossRate ≤ 0.35 :=
  ⟨inOrder_valid, by decide!,
    (getIP_returns_only_accepted samplePool inOrder inOrder_valid
      "1.1.1.1\n2.2.2.2\n3.3.3.3\n").1 (by decide!)⟩

/-- With all results accepted, the scan returns the head of the sorted list. -/
theorem firstAccepted_head (r : LatencyResult) (rest : List LatencyResult)
    (h : r.LossRate ≤ 0.35) : firstAccepted (r :: rest) = r.IP := by
  simp [firstAccepted, h]

/-- C2: when the probe results of the candidates have pairwise distinct latencies and all
have `LossRate ≤ 0.35`, there is one result strictly faster than every other, and `getIP`
returns its address under every delivery order and every order `sort.Slice` may leave. -/
theorem getIP_returns_minimum_latency (ping : Nat → Pinger) (content : String)
    (hdistinct : (probeAll ping (ipList content)).Pairwise
      fun a b => a.Latency ≠ b.Latency)
    (hloss : ∀ r ∈ probeAll ping (ipList content), r.LossRate ≤ 0.35) :
    ∃ r ∈ probeAll ping (ipList content),
      (∀ r' ∈ probeAll ping (ipList content), r' ≠ r → r.Latency < r'.Latency) ∧
        ∀ s : Scheduler, s.Valid → getIP ping s content = r.IP := by
  -- the minimum is read off one valid run, the in-order one
  have hperm : (inOrder.sortSlice (inOrder.deliver (probeAll ping (ipList content)))).Perm
      (probeAll ping (ipList content)) :=
    (inOrder_valid.2.1 _).trans (inOrder_valid.1 _)
  have hsorted := inOrder_valid.2.2 (inOrder.deliver (probeAll ping (ipList content)))
  cases hl : inOrder.sortSlice (inOrder.deliver (probeAll ping (ipList content))) with
  | nil =>
    rw [hl] at hperm
    exact absurd hperm.symm.eq_nil (probeAll_ne_nil ping content)
  | cons m rest =>
    rw [hl] at hperm hsorted
    have hm : m ∈ probeAll ping (ipList content) := hperm.subset (List.mem_cons_self _ _)
    have hdist' : (m :: rest).Pairwise fun a b => a.Latency ≠ b.Latency :=
      hperm.symm.pairwise hdistinct (fun h => Ne.symm h)
    have hmin : ∀ r' ∈ probeAll ping (ipList content), r' ≠ m → m.Latency < r'.Latency := by
      intro r' hr' hne
      have hr'' : r' ∈ m :: rest := hperm.symm.subset hr'
      rcases List.mem_cons.mp hr'' with h | h
      · exact absurd h hne
      · have h1 := (List.pairwise_cons.mp hsorted).1 r' h
        have h2 := (List.pairwise_cons.mp hdist').1 r' h
        omega
    refine ⟨m, hm, hmin, ?_⟩
    intro s hs
    have hperm' : (s.sortSlice (s.deliver (probeAll ping (ipList content)))).Perm
        (probeAll ping (ipList content)) := (hs.2.1 _).trans (hs.1 _)
    have hsorted' := hs.2.2 (s.deliver (probeAll ping (ipList content)))
    cases hl' : s.sortSlice (s.deliver (probeAll ping (ipList content))) with
    | nil =>
      rw [hl'] at hperm'
      exact absurd hperm'.symm.eq_nil (probeAll_ne_nil ping content)
    | cons m' rest' =>
      rw [hl'] at hperm' hsorted'
      have hm' : m' ∈ probeAll ping (ipList content) :=
        hperm'.subset (List.mem_cons_self _ _)
      have heq : m' = m := by
        by_contra hne
        have h1 := hmin m' hm' hne
        have hmm : m ∈ m' :: rest' := hperm'.symm.subset hm
        rcases List.mem_cons.mp hmm with h | h
        · exact hne h.symm
        · have h2 := (List.pairwise_cons.mp hsorted').1 m h
          omega
      show firstAccepted (s.sortSlice (s.deliver (probeAll ping (ipList content)))) = m.IP
      rw [hl', firstAccepted_head m' rest' (hloss m' hm'), heq]

/-- C2 at a concrete pool of three, delivered in reverse order: the 20 ms candidate wins. -/
theorem getIP_returns_minimum_latency_witness :
    getIP cleanPool reversed "1.1.1.1\n2.2.2.2\n3.3.3.3\n" = "2.2.2.2" ∧
      ∃ r ∈ probeAll cleanPool (ipList "1.1.1.1\n2.2.2.2\n3.3.3.3\n"),
        (∀ r' ∈ probeAll cleanPool (ipList "1.1.1.1\n2.2.2.2\n3.3.3.3\n"),
          r' ≠ r → r.Latency < r'.Latency) ∧
        ∀ s : Scheduler, s.Valid →
          getIP cleanPool s "1.1.1.1\n2.2.2.2\n3.3.3.3\n" = r.IP :=
  ⟨by decide!,
    getIP_returns_minimum_latency cleanPool "1.1.1.1\n2.2.2.2\n3.3.3.3\n"
      (by decide!) (by decide!)⟩

/-! ## The probe: claims C9 and C10 -/

/-- Line 54 on three round-trip times: 20 ms and 1000 ms give 20 and 1000; 1001 ms gives
1000, since `1.001 * 1000` falls just below 1001 in `float64`. -/
theorem millis_values :
    millis 20000000 = 20 ∧ millis 1000000000 = 1000 ∧ millis 1001000000 = 1000 := by
  decide!

/-- C9: at a probe that loses one packet of four (`PacketLoss` 25, under the cutoff of 35),
`getLatency` returns `LossRate = 25`, the percentage, which is not in `[0, 1]`, and `getIP`
rejects that candidate under its `LossRate ≤ 0.35` test: the fraction the claim states is not
what the code stores. -/
theorem getLatency_lossRate_is_a_percentage :
    getLatency onePacketLost "2.2.2.2" 4 = { Latency := 20, IP := "2.2.2.2", LossRate := 25 } ∧
      ¬ (getLatency onePacketLost "2.2.2.2" 4).LossRate ≤ 1 ∧
      ¬ (getLatency onePacketLost "2.2.2.2" 4).LossRate ≤ 0.35 ∧
      getIP (fun _ => onePacketLost) inOrder "2.2.2.2" = "" := by
  decide!

/-- C10, as stated, fails: at a probe that loses two packets of four (`PacketLoss` 50) the
`LossRate` returned is 1, which is the measured loss neither as a percentage (50) nor as a
fraction (0.5). -/
theorem getLatency_lossy_probe_not_measured_loss :
    (getLatency twoPacketsLost "2.2.2.2" 4).Latency = 9999 ∧
      (getLatency twoPacketsLost "2.2.2.2" 4).LossRate = 1 ∧
      (getLatency twoPacketsLost "2.2.2.2" 4).LossRate ≠ 50 ∧
      (getLatency twoPacketsLost "2.2.2.2" 4).LossRate ≠ 50 / 100 := by
  decide!

/-- C10, amended: when the pinger cannot be created, or the measured packet loss is 35 percent
or more, `getLatency` returns latency 9999 and the fixed `LossRate` 1 for that address. -/
theorem getLatency_unusable_probe (ping : Pinger) (ip : String) (count : Nat)
    (h : ping ip count = none ∨ ∃ stats, ping ip count = some stats ∧ 35 ≤ stats.PacketLoss) :
    getLatency ping ip count = { Latency := 9999, IP := ip, LossRate := 1 } := by
  rcases h with h | ⟨stats, h, hloss⟩
  · simp [getLatency, h]
  · simp [getLatency, h, not_lt.mpr hloss]

/-- C10, amended, at the probe that loses two packets of four. -/
theorem getLatency_unusable_probe_witness :
    getLatency twoPacketsLost "2.2.2.2" 4 = { Latency := 9999, IP := "2.2.2.2", LossRate := 1 } :=
  getLatency_unusable_probe twoPacketsLost "2.2.2.2" 4
    (Or.inr ⟨{ PacketLoss := 50, AvgRtt := 20000000 }, rfl, by norm_num⟩)

/-! ## The update loop: claims C3, C4, C5 and C6 -/

/-- One pass against `onlyCNAME`: two requests, then the `continue` of line 185, with
`retry` unchanged. -/
theorem attempt_onlyCNAME (ip name domain email key : String) (st : UploadState) :
    attempt onlyCNAME ip name domain email key st =
      Step.next
        { retry := st.retry, url := recordsURL "r1" name domain, attempts := st.attempts + 1,
          sent := (st.sent ++ [getRequest st.url email key]) ++
            [getRequest (recordsURL "r1" name domain) email key],
          log := st.log } := by
  rfl

theorem uploadLoop_onlyCNAME (ip name domain email key : String) :
    ∀ (fuel : Nat) (st : UploadState), st.retry = 0 →
      ∃ st', uploadLoop onlyCNAME ip name domain email key fuel st = Outcome.running st' ∧
        st'.retry = 0 ∧ st'.attempts = st.attempts + fuel := by
  intro fuel
  induction fuel with
  | zero =>
    intro st h
    exact ⟨st, by simp [uploadLoop, h], h, rfl⟩
  | succ n ih =>
    intro st h
    have h1 := attempt_onlyCNAME ip name domain email key st
    obtain ⟨st2, h2, hr2, ha2⟩ := ih _ (show (UploadState.mk st.retry
      (recordsURL "r1" name domain) (st.attempts + 1)
      ((st.sent ++ [getRequest st.url email key]) ++
        [getRequest (recordsURL "r1" name domain) email key]) st.log).retry = 0 from h)
    refine ⟨st2, ?_, hr2, by simp only at ha2; omega⟩
    simp only [uploadLoop, h, h1]
    simpa [h] using h2

/-- C3: against a provider whose every answer holds an id and no record of type "A", no
amount of fuel lets `uploadIP` return: after any number of passes the loop is still going,
`retry` is still 0 and as many attempts have been started as passes were allowed, so more
than 5. The pass abandoned for want of an "A" record is not counted. -/
theorem uploadIP_missing_A_record_is_not_counted (fuel : Nat) :
    ∃ st, uploadIP onlyCNAME fuel "9.9.9.9" "www" "example.com" "e" "k" = Outcome.running st ∧
      st.retry = 0 ∧ st.attempts = fuel := by
  obtain ⟨st, h, hr, ha⟩ := uploadLoop_onlyCNAME "9.9.9.9" "www" "example.com" "e" "k" fuel
    { retry := 0, url := zoneURL "example.com", attempts := 0, sent := [], log := [] } rfl
  exact ⟨st, h, hr, by simpa using ha⟩

/-- Once `retry` has reached 5 the loop is left, whatever fuel remains. -/
theorem uploadLoop_exhausted (p : Provider) (ip name domain email key : String) (fuel : Nat)
    (st : UploadState) (h : 5 ≤ st.retry) :
    uploadLoop p ip name domain email key fuel st = Outcome.returned (finish name domain st) := by
  cases fuel <;> simp [uploadLoop, not_lt.mpr h]

/-- C4: when every zone lookup fails in transport, `uploadIP`, given fuel for 5 passes,
returns after exactly 5 attempts with `retry = 5`; every request it sent is the zone lookup
(5 of them when `http.NewRequest` accepts the URL), so no record lookup and no PUT; and the
last line logged is the failure line. -/
theorem uploadIP_zone_lookup_always_fails (p : Provider) (fuel : Nat)
    (ip name domain email key : String) (hfuel : 5 ≤ fuel)
    (hfail : ∀ k, p.respond k (getRequest (zoneURL domain) email key) =
      Response.transportError) :
    ∃ st, uploadIP p fuel ip name domain email key = Outcome.returned st ∧
      st.retry = 5 ∧ st.attempts = 5 ∧
      (∀ r ∈ st.sent, r = getRequest (zoneURL domain) email key) ∧
      (p.newRequestOk Method.GET (zoneURL domain) = true →
        st.sent = List.replicate 5 (getRequest (zoneURL domain) email key)) ∧
      st.log.getLast? = some (LogLine.updateFailed name domain) := by
  obtain ⟨n, rfl⟩ : ∃ n, fuel = n + 5 := ⟨fuel - 5, by omega⟩
  by_cases hok : p.newRequestOk Method.GET (zoneURL domain) = true
  · refine ⟨UploadState.mk 5 (zoneURL domain) 5
      (List.replicate 5 (getRequest (zoneURL domain) email key))
      [LogLine.doFailed 0 (zoneURL domain), LogLine.doFailed 1 (zoneURL domain),
        LogLine.doFailed 2 (zoneURL domain), LogLine.doFailed 3 (zoneURL domain),
        LogLine.doFailed 4 (zoneURL domain), LogLine.updateFailed name domain], ?_, ?_⟩
    · simp [uploadIP, uploadLoop, attempt, hok, hfail, UploadState.abort,
        UploadState.send, List.replicate]
      rw [uploadLoop_exhausted _ _ _ _ _ _ _ _ (le_refl 5)]
      simp [finish]
    · simp [List.replicate]
  · refine ⟨UploadState.mk 5 (zoneURL domain) 5 []
      [LogLine.requestFailed 0 (zoneURL domain), LogLine.requestFailed 1 (zoneURL domain),
        LogLine.requestFailed 2 (zoneURL domain), LogLine.requestFailed 3 (zoneURL domain),
        LogLine.requestFailed 4 (zoneURL domain), LogLine.updateFailed name domain], ?_, ?_⟩
    · simp [uploadIP, uploadLoop, attempt, hok, UploadState.abort]
      rw [uploadLoop_exhausted _ _ _ _ _ _ _ _ (le_refl 5)]
      simp [finish]
    · simp [hok]

/-- C4 at the provider that cannot be reached. -/
theorem uploadIP_zone_lookup_always_fails_witness :
    ∃ st, uploadIP unreachable 5 "9.9.9.9" "www" "example.com" "e" "k" = Outcome.returned st ∧
      st.retry = 5 ∧ st.attempts = 5 ∧
      (∀ r ∈ st.sent, r = getRequest (zoneURL "example.com") "e" "k") ∧
      (unreachable.newRequestOk Method.GET (zoneURL "example.com") = true →
        st.sent = List.replicate 5 (getRequest (zoneURL "example.com") "e" "k")) ∧
      st.log.getLast? = some (LogLine.updateFailed "www" "example.com") :=
  uploadIP_zone_lookup_always_fails unreachable 5 "9.9.9.9" "www" "example.com" "e" "k"
    (by decide) (fun _ => rfl)

/-- C5: a body the code does not expect makes `uploadIP` panic in its first attempt, with
`retry` still 0, instead of aborting the attempt and returning after 5: so for a body that is
not JSON, for an empty "result" list, for a body without a "result" field, and, at the record
lookup, for a record without a "type". -/
theorem uploadIP_panics_on_unexpected_body (fuel : Nat) :
    (∃ st, uploadIP notJSON (fuel + 1) "9.9.9.9" "www" "example.com" "e" "k" =
        Outcome.panicked st ∧ st.retry = 0 ∧ st.attempts = 1 ∧ st.sent.length = 1) ∧
      (∃ st, uploadIP noZone (fuel + 1) "9.9.9.9" "www" "example.com" "e" "k" =
        Outcome.panicked st ∧ st.retry = 0 ∧ st.attempts = 1 ∧ st.sent.length = 1) ∧
      (∃ st, uploadIP refused (fuel + 1) "9.9.9.9" "www" "example.com" "e" "k" =
        Outcome.panicked st ∧ st.retry = 0 ∧ st.attempts = 1 ∧ st.sent.length = 1) ∧
      (∃ st, uploadIP untypedRecord (fuel + 1) "9.9.9.9" "www" "example.com" "e" "k" =
        Outcome.panicked st ∧ st.retry = 0 ∧ st.attempts = 1 ∧ st.sent.length = 2) :=
  ⟨⟨_, rfl, rfl, rfl, rfl⟩, ⟨_, rfl, rfl, rfl, rfl⟩, ⟨_, rfl, rfl, rfl, rfl⟩,
    ⟨_, rfl, rfl, rfl, rfl⟩⟩

/-- C6: against a provider that answers the zone lookup and then fails every call, the
second attempt does not start at the zone lookup: the third request sent, the first of the
second attempt, goes to the record-lookup URL left in `url` by the first attempt, and so
does every later one; the zone lookup URL is requested once in 5 attempts. -/
theorem uploadIP_retry_starts_at_last_url :
    ∃ st, uploadIP recordLookupDown 5 "9.9.9.9" "www" "example.com" "e" "k" =
        Outcome.returned st ∧ st.attempts = 5 ∧
      st.sent.map Request.url =
        [zoneURL "example.com",
          recordsURL "z1" "www" "example.com", recordsURL "z1" "www" "example.com",
          recordsURL "z1" "www" "example.com", recordsURL "z1" "www" "example.com",
          recordsURL "z1" "www" "example.com"] ∧
      (st.sent.map Request.url).get? 2 =
        some "https://api.cloudflare.com/client/v4/zones/z1/dns_records?name=www.example.com" ∧
      (st.sent.map Request.url).get? 2 ≠
        some "https://api.cloudflare.com/client/v4/zones?name=example.com" :=
  ⟨_, rfl, rfl, rfl, rfl, by decide⟩

/-! ## The per-domain flow: claims C7 and C8 -/

/-- C7: with the archive entries "a.txt" then "b.txt", both yielding a winner, and the source
filter "b", which "b.txt" contains and "a.txt" does not, `handleMain` selects from the text
of "a.txt" and publishes its winner 1.1.1.1, not the winner 2.2.2.2 of "b.txt": both branches
of the filter test read the entry at hand. -/
theorem handleMain_ignores_source_filter :
    stringsContains "a.txt".toList "b".toList = false ∧
      stringsContains "b.txt".toList "b".toList = true ∧
      getIP ((sampleWorld 250).pingPool 1) inOrder "2.2.2.2\n" = "2.2.2.2" ∧
      handleMain (sampleWorld 250) sampleConfig ["www", "example.com", "b"] =
        some [Event.probe "www.example.com" 10, Event.fetchArchive, Event.select "1.1.1.1\n",
          Event.upload "1.1.1.1" "www" "example.com" "e" "k"] := by
  decide!

/-- C8: when the probe of the current address (10 samples) gives a latency of at most 200,
`handleMain` logs that nothing is updated and stops: no archive fetch, no selection, no
`uploadIP`. When the latency is above 200, the next thing it does is fetch the archive. -/
theorem handleMain_latency_gate (w : World) (config : Config) (d0 d1 : String)
    (rest : List String) :
    ((getLatency w.pingCurrent (d0 ++ "." ++ d1) 10).Latency ≤ 200 →
        handleMain w config (d0 :: d1 :: rest) =
          some [Event.probe (d0 ++ "." ++ d1) 10,
            Event.logNotUpdated (d0 ++ "." ++ d1)
              (getLatency w.pingCurrent (d0 ++ "." ++ d1) 10).Latency]) ∧
      (200 < (getLatency w.pingCurrent (d0 ++ "." ++ d1) 10).Latency →
        ∃ tail, handleMain w config (d0 :: d1 :: rest) =
          some (Event.probe (d0 ++ "." ++ d1) 10 :: Event.fetchArchive :: tail)) := by
  constructor
  · intro h
    simp [handleMain, not_lt.mpr h]
  · intro h
    simp only [handleMain, gt_iff_lt, h, if_true]
    cases w.archive <;> simp

/-- C8 at 150 ms and at 250 ms. -/
theorem handleMain_latency_gate_witness :
    handleMain (sampleWorld 150) sampleConfig ["www", "example.com", "b"] =
        some [Event.probe "www.example.com" 10, Event.logNotUpdated "www.example.com" 150] ∧
      ∃ tail, handleMain (sampleWorld 250) sampleConfig ["www", "example.com", "b"] =
        some (Event.probe "www.example.com" 10 :: Event.fetchArchive :: tail) :=
  ⟨((handleMain_latency_gate (sampleWorld 150) sampleConfig "www" "example.com" ["b"]).1
      (by decide!)).trans (by decide!),
    (handleMain_latency_gate (sampleWorld 250) sampleConfig "www" "example.com" ["b"]).2
      (by decide!)⟩

end UpdateProxyIP
